import Mathlib

/-!
Verification of the LinkQ Neo4j query-building core: a shallow embedding of
the dialogue-driven search orchestrator, its action classifier, the Cypher
query executor and result-binding normalizer, and the query-pattern
extractor, together with theorems settling the specification's claims.

JavaScript strings are modelled as `List Char` (named `JStr`); the JS string
operations the source uses (`trim`, `toUpperCase`, `includes`, `startsWith`,
`split`, `replace` with a string pattern) are defined below with JS
semantics.  `String.trim` in JS removes Unicode whitespace; we use
`Char.isWhitespace` (space, tab, CR, LF), which agrees on the ASCII inputs
relevant here.
-/

/-- JS string, modelled as a list of characters. -/
abbrev JStr := List Char

/-- JS `String.prototype.trim`: drop leading and trailing whitespace. -/
def jsTrim (s : JStr) : JStr :=
  ((s.dropWhile Char.isWhitespace).reverse.dropWhile Char.isWhitespace).reverse

/-- JS `String.prototype.toUpperCase` (ASCII fragment). -/
def jsToUpper (s : JStr) : JStr := s.map Char.toUpper

/-- Locate the first occurrence of `sep` in `s`: returns the segment before
the first occurrence and the remainder after it, or `none` when `sep` does
not occur.  This is the primitive from which JS `split`, first-occurrence
`replace`, and `includes` behaviour are derived. -/
def breakFirst (sep : JStr) : JStr → Option (JStr × JStr)
  | [] => if sep = [] then some ([], []) else none
  | c :: rest =>
    if sep <+: (c :: rest) then some ([], (c :: rest).drop sep.length)
    else
      match breakFirst sep rest with
      | none => none
      | some (a, b) => some (c :: a, b)

/-- Fuel-driven worker for `splitOnL`; with fuel larger than the string
length it computes JS `split` on a nonempty separator. -/
def splitOnFuel (sep : JStr) : Nat → JStr → List JStr
  | 0, s => [s]
  | fuel + 1, s =>
    match breakFirst sep s with
    | none => [s]
    | some (a, b) => a :: splitOnFuel sep fuel b

/-- JS `String.prototype.split` with a nonempty string separator
(non-overlapping occurrences, left to right).  A `[]` separator never occurs
in the embedded source; it is mapped to the whole string. -/
def splitOnL (sep s : JStr) : List JStr :=
  if sep = [] then [s] else splitOnFuel sep (s.length + 1) s

/-- JS `String.prototype.replace` with a string pattern: replaces only the
first occurrence. -/
def jsReplaceFirst (s pat repl : JStr) : JStr :=
  match breakFirst pat s with
  | none => s
  | some (a, b) => a ++ repl ++ b

/-- The substring of `s` following the first occurrence of `m` (meaningful
when `m` occurs in `s`); phrasing taken from the specification's "the
substring following the first matching marker". -/
def afterFirstOcc (m s : JStr) : JStr :=
  match breakFirst m s with
  | none => []
  | some (_, b) => b

/-!
### Action classifier (src lines 13–89 of the orchestrator module)

The source inlines the classification in `queryBuildingWorkflow`'s loop
body; `classifyResponse` is that `if`/`else` chain (lines 55–89) as a pure
function.  It takes the raw assistant reply content and performs the same
`trim` first.
-/

def ENTITY_SEARCH_MARKER : JStr := "Entity Search:".toList

def PROPERTIES_SEARCH_MARKER : JStr := "Properties Search:".toList

def TAIL_SEARCH_MARKER : JStr := "Tail Search:".toList

def QUERY_BUILDING_MAX_LOOPS : Nat := 20

/-- The structured action derived from one assistant reply.  The
related-entities payload is kept raw: the source splits it on the comma
inside `handleRelatedEntitiesSearch`, not at classification time. -/
inductive SearchAction where
  | stopAction : SearchAction
  | entitySearch (term : JStr) : SearchAction
  | propertiesSearch (entityId : JStr) : SearchAction
  | relatedEntitiesSearch (payload : JStr) : SearchAction
  | invalid : SearchAction
deriving DecidableEq

/-- Lines 55–89: trim; `STOP` (case-insensitive) stops; else the first
matching branch of: contains "Entity Search:", contains
"Properties Search:", starts with "Tail Search:"; else invalid.  The
payload of the two contains-branches is `split(marker)[1].trim()`; the
tail branch removes the first occurrence of its marker and trims. -/
def classifyResponse (content : JStr) : SearchAction :=
  let responseText := jsTrim content
  if jsToUpper responseText = ("STOP".toList) then .stopAction
  else if ENTITY_SEARCH_MARKER <:+: responseText then
    .entitySearch (jsTrim ((splitOnL ENTITY_SEARCH_MARKER responseText).getD 1 []))
  else if PROPERTIES_SEARCH_MARKER <:+: responseText then
    .propertiesSearch (jsTrim ((splitOnL PROPERTIES_SEARCH_MARKER responseText).getD 1 []))
  else if TAIL_SEARCH_MARKER <+: responseText then
    .relatedEntitiesSearch (jsTrim (jsReplaceFirst responseText TAIL_SEARCH_MARKER []))
  else .invalid

/-!
### Query execution and result normalization (runCypherQuery module)

Result cells are JS values: `CellValue` covers null, undefined, booleans,
numbers (modelled as integers — the claims only involve integral values),
strings, plain objects (ordered field lists) and arrays.
-/

inductive CellValue where
  | vnull : CellValue
  | vundefined : CellValue
  | vbool (b : Bool) : CellValue
  | vnum (n : Int) : CellValue
  | vstr (s : JStr) : CellValue
  | vobj (fields : List (JStr × CellValue)) : CellValue
  | varr (items : List CellValue) : CellValue

/-- JSON string quoting as `JSON.stringify` performs it (quote and
backslash escapes; the embedded inputs contain no control characters). -/
def jsonEscapeChar (c : Char) : JStr :=
  if c = '"' then ['\\', '"']
  else if c = '\\' then ['\\', '\\']
  else [c]

def jsonQuote (s : JStr) : JStr :=
  '"' :: ((s.map jsonEscapeChar).flatten ++ ['"'])

mutual

/-- `JSON.stringify` on a cell value.  `undefined` has no JSON form; the
embedded code never reaches it (null/undefined are filtered first). -/
def jsonStringify : CellValue → JStr
  | .vnull => "null".toList
  | .vundefined => []
  | .vbool b => if b then "true".toList else "false".toList
  | .vnum n => (toString n).toList
  | .vstr s => jsonQuote s
  | .vobj fields =>
    ('\x7b' :: List.intercalate (",".toList) (jsonFields fields)) ++ ['\x7d']
  | .varr items =>
    ('[' :: List.intercalate (",".toList) (jsonItems items)) ++ [']']

def jsonFields : List (JStr × CellValue) → List JStr
  | [] => []
  | (k, v) :: rest => (jsonQuote k ++ (":".toList) ++ jsonStringify v) :: jsonFields rest

def jsonItems : List CellValue → List JStr
  | [] => []
  | v :: rest => jsonStringify v :: jsonItems rest

end

/-- JS truthiness of a cell value. -/
def truthy : CellValue → Bool
  | .vnull => false
  | .vundefined => false
  | .vbool b => b
  | .vnum n => decide (n ≠ 0)
  | .vstr s => decide (s ≠ [])
  | .vobj _ => true
  | .varr _ => true

/-- JS property access `value.k`: a present object field, else undefined
(property access on primitives also yields undefined for these keys). -/
def getField (v : CellValue) (k : JStr) : CellValue :=
  match v with
  | .vobj fields =>
    match fields.lookup k with
    | some w => w
    | none => .vundefined
  | _ => .vundefined

/-- JS `typeof`; note `typeof null` is `"object"`. -/
def typeofStr : CellValue → JStr
  | .vnull => "object".toList
  | .vundefined => "undefined".toList
  | .vbool _ => "boolean".toList
  | .vnum _ => "number".toList
  | .vstr _ => "string".toList
  | .vobj _ => "object".toList
  | .varr _ => "object".toList

/-- JS `String(value)` on the primitive values the code applies it to. -/
def jsToString : CellValue → JStr
  | .vnull => "null".toList
  | .vundefined => "undefined".toList
  | .vbool b => if b then "true".toList else "false".toList
  | .vnum n => (toString n).toList
  | .vstr s => s
  | .vobj _ => "[object Object]".toList
  | .varr _ => []

/-- One normalized cell: `{type, value}`. -/
structure Binding where
  type : JStr
  value : JStr
deriving DecidableEq

/-- A record of a Cypher result: ordered fields, `get` by key. -/
structure NeoRecord where
  fields : List (JStr × CellValue)

def NeoRecord.keys (r : NeoRecord) : List JStr := r.fields.map Prod.fst

/-- `record.get(key)`: the first field with that key (the driver would
throw on an unknown key; the embedded code only uses known keys, and a
missing key is modelled as undefined). -/
def NeoRecord.get (r : NeoRecord) (k : JStr) : CellValue :=
  match r.fields.lookup k with
  | some v => v
  | none => .vundefined

structure QuerySummary where
  query : JStr
  parameters : List (JStr × JStr)
  counters : JStr
deriving DecidableEq

structure CypherResult where
  records : List NeoRecord
  summary : QuerySummary

structure FormattedCypherResult where
  columns : List JStr
  rows : List (List CellValue)
  summary : QuerySummary

/-- `formatCypherResult` (lines 51–79): empty record list yields empty
columns and rows; otherwise columns are the stringified keys of the first
record (keys are modelled as strings, so `String(key)` is the identity)
and each row projects the record through the columns in order. -/
def formatCypherResult (result : CypherResult) : FormattedCypherResult :=
  match result.records with
  | [] => { columns := [], rows := [], summary := result.summary }
  | r0 :: _ =>
    let columns := r0.keys
    let rows := result.records.map (fun record => columns.map (fun column => record.get column))
    { columns := columns, rows := rows, summary := result.summary }

/-- The `type` chosen for a cell by `convertToSparqlResultsFormat`
(lines 93–105): null/undefined are `unknown`; objects with a truthy
`_labels`, `_id` or `_type` field are `uri`, other objects are `object`;
otherwise `typeof value`. -/
def cellType (value : CellValue) : JStr :=
  match value with
  | .vnull => "unknown".toList
  | .vundefined => "unknown".toList
  | _ =>
    if typeofStr value = ("object".toList) then
      if truthy (getField value ("_labels".toList)) ||
         truthy (getField value ("_id".toList)) ||
         truthy (getField value ("_type".toList)) then "uri".toList
      else "object".toList
    else typeofStr value

/-- The `value` string chosen for a cell (lines 107–115): null/undefined
become the empty string, objects are JSON-serialized, primitives are
`String(value)`. -/
def cellValueStr (value : CellValue) : JStr :=
  match value with
  | .vnull => []
  | .vundefined => []
  | _ =>
    if typeofStr value = ("object".toList) then jsonStringify value
    else jsToString value

def convertCell (value : CellValue) : Binding :=
  { type := cellType value, value := cellValueStr value }

/-- The normalizer's output shape `{head: {vars}, results: {bindings}}`;
a binding row is the ordered column-to-Binding mapping the code builds. -/
structure SparqlResultsJsonType where
  vars : List JStr
  bindings : List (List (JStr × Binding))
deriving DecidableEq

/-- `convertToSparqlResultsFormat` (lines 84–134): vars are the columns;
each row becomes a mapping built by walking the columns with their index
(`row[index]`, an out-of-range index reading as undefined). -/
def convertToSparqlResultsFormat (formattedResult : FormattedCypherResult) :
    SparqlResultsJsonType :=
  { vars := formattedResult.columns
    bindings := formattedResult.rows.map (fun row =>
      formattedResult.columns.enum.map (fun p =>
        (p.2, convertCell (row.getD p.1 .vundefined)))) }

/-- Error kinds thrown by `runCypherQuery` (lines 27–46): the guard throws
`Error('Not connected to Neo4j')`; driver faults are rethrown. -/
inductive QueryError where
  | notConnected : QueryError
  | storeError (msg : JStr) : QueryError
deriving DecidableEq

/-- `error.message` of the thrown error. -/
def QueryError.message : QueryError → JStr
  | .notConnected => "Not connected to Neo4j".toList
  | .storeError msg => msg

/-- The external store collaborator: a connection flag and the driver's
behaviour on a query (a fault message or a result). -/
structure StoreEnv where
  connected : Bool
  driverRun : JStr → List (JStr × JStr) → Except JStr CypherResult

/-- `runCypherQuery`: checks the connection, then runs the query.  The
second component is the list of queries actually issued to the store; the
disconnected guard throws before anything reaches the store. -/
def runCypherQuery (env : StoreEnv) (query : JStr) (params : List (JStr × JStr)) :
    Except QueryError CypherResult × List (JStr × List (JStr × JStr)) :=
  if env.connected = false then (.error .notConnected, [])
  else
    match env.driverRun query params with
    | .ok r => (.ok r, [(query, params)])
    | .error msg => (.error (.storeError msg), [(query, params)])

/-!
### Dialogue-driven search orchestrator (queryBuildingWorkflow module)

The chat transport is modelled as an oracle giving the assistant's reply to
the n-th `sendMessages` call; the trace records every message sent and every
query issued to the store.
-/

structure ChatMessage where
  content : JStr
  role : JStr
  stage : JStr
deriving DecidableEq

structure WorkflowEnv where
  replies : Nat → JStr
  store : StoreEnv

structure WfState where
  sent : List ChatMessage
  queries : List (JStr × List (JStr × JStr))

/-- `chatAPI.sendMessages([msg])`: appends the turn and yields the next
assistant reply. -/
def sendMessages (env : WorkflowEnv) (st : WfState) (msg : ChatMessage) :
    WfState × JStr :=
  ({ st with sent := st.sent ++ [msg] }, env.replies st.sent.length)

def KG_NAME : JStr := "Neo4j Knowledge Graph".toList

def INITIAL_QUERY_BUILDING_SYSTEM_MESSAGE : JStr :=
  ("You are an AI assistant that helps construct Cypher queries for a Neo4j knowledge graph.\n\nThe knowledge graph contains documents that have been processed into chunks and entities.\nSchema:\n- (Document) nodes represent uploaded documents\n- (Chunk) nodes represent pieces of those documents\n- (__Entity__) nodes represent entities extracted from the documents\n- Relationships: \n  - (Chunk)-[:PART_OF]->(Document)\n  - (__Entity__)-[:MENTIONED_IN]->(Chunk)\n  - (__Entity__)-[:RELATED_TO]->(__Entity__)\n\nTo build queries, you can:\n1. Search for entities: \"Entity Search: <search term>\"\n2. Search for properties of an entity: \"Properties Search: <entity_id>\"\n3. Find entities related to another entity: \"Tail Search: <entity_id>, <relationship_type>\"\n\nWhen you're ready to stop searching and construct the query, respond with \"STOP\".\n").toList

def QUERY_BUILDING_SYSTEM_MESSAGE : JStr :=
  ("Now construct a Cypher query that answers the user's question using the entity and relationship IDs you've found. The query should be syntactically correct Neo4j Cypher.").toList

def entitySearchQueryText : JStr :=
  ("\n      MATCH (e:__Entity__)\n      WHERE e.id CONTAINS $searchTerm OR e.description CONTAINS $searchTerm\n      RETURN e.id AS entityId, e.description AS description\n      LIMIT 5\n    ").toList

def propertiesSearchQueryText : JStr :=
  ("\n      MATCH (e:__Entity__ \x7bid: $entityId\x7d)\n      RETURN properties(e) AS properties\n      LIMIT 1\n    ").toList

/-- The related-entities query: the relationship type is spliced into the
pattern clause by string concatenation (source line 209) — there is no
character validation anywhere on this path. -/
def relatedSearchQueryText (relationshipType : JStr) : JStr :=
  ("\n      MATCH (e1:__Entity__ \x7bid: $entityId\x7d)-[r:".toList) ++ relationshipType ++
  ("]->(e2:__Entity__)\n      RETURN e2.id AS relatedEntityId, e2.description AS description\n      LIMIT 5\n    ").toList

/-- `${x}: ${y || 'No description'}` over a record's two projected cells. -/
def entityLine (entityId description : CellValue) : JStr :=
  jsToString entityId ++ (": ".toList) ++
    (if truthy description then jsToString description else ("No description".toList))

def entitiesTextOf (records : List NeoRecord) : JStr :=
  List.intercalate ("\n".toList)
    (records.map (fun record =>
      entityLine (record.get ("entityId".toList)) (record.get ("description".toList))))

def relatedEntitiesTextOf (records : List NeoRecord) : JStr :=
  List.intercalate ("\n".toList)
    (records.map (fun record =>
      entityLine (record.get ("relatedEntityId".toList)) (record.get ("description".toList))))

/-- `Object.entries(properties)` flattened to `key: value` lines; a
non-object value has no entries. -/
def propertiesTextOf (properties : CellValue) : JStr :=
  match properties with
  | .vobj fields =>
    List.intercalate ("\n".toList)
      (fields.map (fun p => p.1 ++ (": ".toList) ++ jsToString p.2))
  | _ => []

def mkSystemMsg (content stage : JStr) : ChatMessage :=
  { content := content, role := "system".toList, stage := stage }

/-- `handleEntitySearch` (lines 102–147). -/
def handleEntitySearch (env : WorkflowEnv) (st : WfState) (searchTerm : JStr) :
    WfState × JStr :=
  let qr := runCypherQuery env.store entitySearchQueryText [("searchTerm".toList, searchTerm)]
  let st1 : WfState := { st with queries := st.queries ++ qr.2 }
  match qr.1 with
  | .error e =>
    sendMessages env st1 (mkSystemMsg
      (("Error searching for entities: ".toList) ++ e.message)
      ("Entity Fuzzy Searching".toList))
  | .ok result =>
    match result.records with
    | [] =>
      sendMessages env st1 (mkSystemMsg
        (KG_NAME ++ (" did not find any entities matching \"".toList) ++ searchTerm ++
          ("\". You may need to rephrase or simplify your entity search".toList))
        ("Entity Fuzzy Searching".toList))
    | _ :: _ =>
      sendMessages env st1 (mkSystemMsg
        (("Found entities in ".toList) ++ KG_NAME ++ (":\n".toList) ++
          entitiesTextOf result.records)
        ("Entity Fuzzy Searching".toList))

/-- `handlePropertiesSearch` (lines 149–190). -/
def handlePropertiesSearch (env : WorkflowEnv) (st : WfState) (entityId : JStr) :
    WfState × JStr :=
  let qr := runCypherQuery env.store propertiesSearchQueryText [("entityId".toList, entityId)]
  let st1 : WfState := { st with queries := st.queries ++ qr.2 }
  match qr.1 with
  | .error e =>
    sendMessages env st1 (mkSystemMsg
      (("Error getting properties for entity: ".toList) ++ e.message)
      ("Property Search".toList))
  | .ok result =>
    match result.records with
    | [] =>
      sendMessages env st1 (mkSystemMsg
        (KG_NAME ++ (" did not find any entity with ID \"".toList) ++ entityId ++
          ("\". Are you sure that entity exists?".toList))
        ("Property Search".toList))
    | r0 :: _ =>
      sendMessages env st1 (mkSystemMsg
        (("Properties for entity ".toList) ++ entityId ++ (":\n".toList) ++
          propertiesTextOf (r0.get ("properties".toList)))
        ("Property Search".toList))

def RELATED_FORMAT_ERROR_MESSAGE : JStr :=
  ("Your response did not follow the correct format. Please provide: Entity ID, Relationship Type").toList

/-- Lines 193–204: the payload is split on `","`; any split of length ≠ 2
is a format error, otherwise the two parts are trimmed.  No emptiness check
is performed on the two fields. -/
def parseRelatedPayload (text : JStr) : Option (JStr × JStr) :=
  let split := splitOnL (",".toList) text
  if split.length ≠ 2 then none
  else some (jsTrim (split.getD 0 []), jsTrim (split.getD 1 []))

/-- `handleRelatedEntitiesSearch` (lines 192–249). -/
def handleRelatedEntitiesSearch (env : WorkflowEnv) (st : WfState) (text : JStr) :
    WfState × JStr :=
  match parseRelatedPayload text with
  | none =>
    sendMessages env st (mkSystemMsg RELATED_FORMAT_ERROR_MESSAGE ("Tail Search".toList))
  | some (entityId, relationshipType) =>
    let qr := runCypherQuery env.store (relatedSearchQueryText relationshipType)
      [("entityId".toList, entityId)]
    let st1 : WfState := { st with queries := st.queries ++ qr.2 }
    match qr.1 with
    | .error e =>
      sendMessages env st1 (mkSystemMsg
        (("Error finding related entities: ".toList) ++ e.message)
        ("Tail Search".toList))
    | .ok result =>
      match result.records with
      | [] =>
        sendMessages env st1 (mkSystemMsg
          (KG_NAME ++ (" did not find any entities connected to \"".toList) ++ entityId ++
            ("\" via \"".toList) ++ relationshipType ++
            ("\" relationship. Are you sure that entity has that relationship?".toList))
          ("Tail Search".toList))
      | _ :: _ =>
        sendMessages env st1 (mkSystemMsg
          (("Related entities via ".toList) ++ relationshipType ++ (":\n".toList) ++
            relatedEntitiesTextOf result.records)
          ("Tail Search".toList))

def INVALID_RESPONSE_MESSAGE : JStr :=
  ("That was an invalid response. If you are done, just respond with STOP. Follow the specified format. ".toList) ++
  INITIAL_QUERY_BUILDING_SYSTEM_MESSAGE

def finalQueryMessage (text : JStr) : ChatMessage :=
  mkSystemMsg
    (QUERY_BUILDING_SYSTEM_MESSAGE ++
      (" Now construct a query that answers the user's question: ".toList) ++ text)
    ("Query Building".toList)

/-- The `while (NO_FOREVER_LOOP < QUERY_BUILDING_MAX_LOOPS)` loop
(lines 51–90), with the remaining iteration budget as fuel; each iteration
classifies the latest reply, breaks on STOP, and otherwise dispatches one
handler (each handler performs exactly one chat round-trip). -/
def queryBuildingLoop (env : WorkflowEnv) : Nat → WfState → JStr → WfState × JStr
  | 0, st, reply => (st, reply)
  | fuel + 1, st, reply =>
    match classifyResponse reply with
    | .stopAction => (st, reply)
    | .entitySearch term =>
      let r := handleEntitySearch env st term
      queryBuildingLoop env fuel r.1 r.2
    | .propertiesSearch entityId =>
      let r := handlePropertiesSearch env st entityId
      queryBuildingLoop env fuel r.1 r.2
    | .relatedEntitiesSearch payload =>
      let r := handleRelatedEntitiesSearch env st payload
      queryBuildingLoop env fuel r.1 r.2
    | .invalid =>
      let r := sendMessages env st
        (mkSystemMsg INVALID_RESPONSE_MESSAGE ("Query Building".toList))
      queryBuildingLoop env fuel r.1 r.2

/-- `queryBuildingWorkflow` (lines 41–100): initial system turn, the
bounded loop, then the final query-construction turn whose reply is
returned. -/
def queryBuildingWorkflow (env : WorkflowEnv) (text : JStr) : WfState × JStr :=
  let st0 : WfState := { sent := [], queries := [] }
  let r0 := sendMessages env st0
    (mkSystemMsg INITIAL_QUERY_BUILDING_SYSTEM_MESSAGE ("Query Building".toList))
  let r1 := queryBuildingLoop env QUERY_BUILDING_MAX_LOOPS r0.1 r0.2
  sendMessages env r1.1 (finalQueryMessage text)

/-!
### Pattern extractor (`parseCypherQuery` module)

The source scans the normalized query with two regexes.  Both are embedded
as deterministic matchers: every character class in them is followed by a
delimiter outside the class, so greedy matching never needs to give
characters back, and the one ordered alternation (the dash forms) is tried
left to right with the trailing node as continuation, exactly as the JS
regex engine does.
-/

/-- The class `[a-zA-Z0-9_]`. -/
def isWordChar (c : Char) : Bool := c.isAlpha || c.isDigit || c = '_'

/-- The class `[a-zA-Z0-9_:]`. -/
def isLabelChar (c : Char) : Bool := isWordChar c || c = ':'

/-- One match of the node regex
`\(([a-zA-Z0-9_]+)(?::([a-zA-Z0-9_:]+))?(?:\s*\{([^}]*)\})?\)`:
group 1 (variable), group 2 (labels, `[]` when absent), group 3
(properties, `[]` when absent). -/
structure NodeMatch where
  variableStr : JStr
  labelsPart : JStr
  propsPart : JStr
deriving DecidableEq

/-- Try the node regex anchored at the start of `s`; on success also
return the remainder after the match. -/
def matchNodeAt (s : JStr) : Option (NodeMatch × JStr) :=
  match s with
  | '(' :: s1 =>
    let v := s1.takeWhile isWordChar
    if v = [] then none
    else
      let s2 := s1.drop v.length
      let lp : JStr × JStr :=
        match s2 with
        | ':' :: t =>
          let L := t.takeWhile isLabelChar
          if L = [] then ([], s2) else (L, t.drop L.length)
        | _ => ([], s2)
      let pp : JStr × JStr :=
        match lp.2.dropWhile Char.isWhitespace with
        | '\x7b' :: u =>
          let P := u.takeWhile (fun c => c != '\x7d')
          match u.drop P.length with
          | '\x7d' :: v2 => (P, v2)
          | _ => ([], lp.2)
        | _ => ([], lp.2)
      match pp.2 with
      | ')' :: s5 =>
        some ({ variableStr := v, labelsPart := lp.1, propsPart := pp.1 }, s5)
      | _ => none
  | _ => none

/-- One match of the relationship regex
`\((w+)\)(?:-\[(w+)?(?::(w+))?(?:\s*\{([^}]*)\})?\]->|-->|--|->|-)\((w+)\)`
(writing `w+` for `[a-zA-Z0-9_]+`).  Absent groups are `[]`. -/
structure RelMatch where
  sourceVar : JStr
  relVar : JStr
  relType : JStr
  propsPart : JStr
  targetVar : JStr
deriving DecidableEq

/-- `\([a-zA-Z0-9_]+\)` anchored at the start. -/
def matchVarParen (s : JStr) : Option (JStr × JStr) :=
  match s with
  | '(' :: s1 =>
    let v := s1.takeWhile isWordChar
    if v = [] then none
    else
      match s1.drop v.length with
      | ')' :: s2 => some (v, s2)
      | _ => none
  | _ => none

/-- The first dash alternative `-\[(w+)?(?::(w+))?(?:\s*\{([^}]*)\})?\]->`
anchored at the start; returns (relVar, relType, propsPart, remainder). -/
def matchBracketArrow (s : JStr) : Option (JStr × JStr × JStr × JStr) :=
  match s with
  | '-' :: '[' :: u0 =>
    let rv := u0.takeWhile isWordChar
    let u1 := u0.drop rv.length
    let tp : JStr × JStr :=
      match u1 with
      | ':' :: t =>
        let T := t.takeWhile isWordChar
        if T = [] then ([], u1) else (T, t.drop T.length)
      | _ => ([], u1)
    let pp : JStr × JStr :=
      match tp.2.dropWhile Char.isWhitespace with
      | '\x7b' :: w =>
        let P := w.takeWhile (fun c => c != '\x7d')
        match w.drop P.length with
        | '\x7d' :: w2 => (P, w2)
        | _ => ([], tp.2)
      | _ => ([], tp.2)
    match pp.2 with
    | ']' :: '-' :: '>' :: u4 => some (rv, tp.1, pp.1, u4)
    | _ => none
  | _ => none

/-- Complete a relationship match with the target node pattern. -/
def relFinish (sv rv rt pp rest : JStr) : Option (RelMatch × JStr) :=
  match matchVarParen rest with
  | some (tv, rest2) =>
    some ({ sourceVar := sv, relVar := rv, relType := rt, propsPart := pp,
            targetVar := tv }, rest2)
  | none => none

/-- Try the relationship regex anchored at the start of `s`: source node,
then the five dash alternatives in the regex's order, each completed by
the target node (the engine falls through to the next alternative when
the continuation fails). -/
def matchRelAt (s : JStr) : Option (RelMatch × JStr) :=
  match matchVarParen s with
  | none => none
  | some (sv, r) =>
    match (match matchBracketArrow r with
           | some (rv, rt, pp, r1) => relFinish sv rv rt pp r1
           | none => none) with
    | some x => some x
    | none =>
      match (match r with
             | '-' :: '-' :: '>' :: r1 => relFinish sv [] [] [] r1
             | _ => none) with
      | some x => some x
      | none =>
        match (match r with
               | '-' :: '-' :: r1 => relFinish sv [] [] [] r1
               | _ => none) with
        | some x => some x
        | none =>
          match (match r with
                 | '-' :: '>' :: r1 => relFinish sv [] [] [] r1
                 | _ => none) with
          | some x => some x
          | none =>
            match r with
            | '-' :: r1 => relFinish sv [] [] [] r1
            | _ => none

/-- `nodePattern.exec` loop: successive non-overlapping matches, searching
each next match from the end of the previous one.  Fuel (≥ length + 1)
only bounds the recursion. -/
def scanNodesFuel : Nat → JStr → List NodeMatch
  | 0, _ => []
  | fuel + 1, s =>
    match s with
    | [] => []
    | _ :: rest =>
      match matchNodeAt s with
      | some (m, restAfter) => m :: scanNodesFuel fuel restAfter
      | none => scanNodesFuel fuel rest

/-- `relPattern.exec` loop. -/
def scanRelsFuel : Nat → JStr → List RelMatch
  | 0, _ => []
  | fuel + 1, s =>
    match s with
    | [] => []
    | _ :: rest =>
      match matchRelAt s with
      | some (m, restAfter) => m :: scanRelsFuel fuel restAfter
      | none => scanRelsFuel fuel rest

structure Neo4jNode where
  varName : JStr      -- `variable` in the source (reserved in Lean)
  labels : List JStr
  properties : Option (List (JStr × JStr))
deriving DecidableEq

structure Neo4jRelationship where
  relVar : Option JStr   -- `variable` in the source (reserved in Lean)
  type : JStr
  source : JStr
  target : JStr
  properties : Option (List (JStr × JStr))
deriving DecidableEq

def isQuoteChar (c : Char) : Bool := c = '"' || c = '\''

/-- `value.replace(/^["'](.*)["']$/, '$1')`: strip one surrounding quote
character from each end when both ends carry one (any mix of kinds). -/
def stripQuotes (value : JStr) : JStr :=
  match value with
  | c :: d :: rest =>
    if isQuoteChar c && isQuoteChar ((d :: rest).getLast (by simp)) then
      (d :: rest).dropLast
    else value
  | _ => value

/-- JS object assignment `properties[key] = v`: overwrite an existing key
in place, else append. -/
def insertProp : List (JStr × JStr) → JStr → JStr → List (JStr × JStr)
  | [], k, v => [(k, v)]
  | (k0, v0) :: rest, k, v =>
    if k0 = k then (k0, v) :: rest else (k0, v0) :: insertProp rest k v

/-- The naive property parsing shared by both scan loops (lines 38–47 and
72–79): split on commas, split each pair on `:`, trim, keep pairs whose
key and value are both truthy, strip surrounding quotes from the value. -/
def parsePropsPart (propertiesPart : JStr) : List (JStr × JStr) :=
  if propertiesPart = [] then []
  else
    (splitOnL (",".toList) propertiesPart).foldl
      (fun properties pair =>
        let parts := (splitOnL (":".toList) pair).map jsTrim
        let key := parts.getD 0 []
        let value := parts.getD 1 []
        if key ≠ [] ∧ value ≠ [] then insertProp properties key (stripQuotes value)
        else properties)
      []

def mkNodeFromMatch (m : NodeMatch) : Neo4jNode :=
  let labels :=
    if m.labelsPart = [] then []
    else (splitOnL (":".toList) m.labelsPart).filter (fun l => !l.isEmpty)
  let properties := parsePropsPart m.propsPart
  { varName := m.variableStr, labels := labels,
    properties := if properties.length > 0 then some properties else none }

def mkRelFromMatch (m : RelMatch) : Neo4jRelationship :=
  let properties := parsePropsPart m.propsPart
  { relVar := if m.relVar = [] then none else some m.relVar
    type := if m.relType = [] then ("RELATED_TO".toList) else m.relType
    source := m.sourceVar
    target := m.targetVar
    properties := if properties.length > 0 then some properties else none }

/-- The node-scan loop body: skip variables already registered, else push
the node (lines 26–57). -/
def processNodeMatches : List Neo4jNode → List NodeMatch → List Neo4jNode
  | nodes, [] => nodes
  | nodes, m :: rest =>
    if nodes.any (fun n => n.varName = m.variableStr) then
      processNodeMatches nodes rest
    else
      processNodeMatches (nodes ++ [mkNodeFromMatch m]) rest

/-- Lines 92–102 (one endpoint): if no node with this variable is
registered, push a label-less placeholder node. -/
def ensureNode (nodes : List Neo4jNode) (v : JStr) : List Neo4jNode :=
  if nodes.any (fun n => n.varName = v) then nodes
  else nodes ++ [{ varName := v, labels := [], properties := none }]

/-- The relationship-scan loop body (lines 63–103): push the relationship,
then make sure both endpoint variables are registered as nodes,
synthesizing label-less nodes when missing. -/
def processRelMatches :
    List Neo4jNode → List Neo4jRelationship → List RelMatch →
    List Neo4jNode × List Neo4jRelationship
  | nodes, rels, [] => (nodes, rels)
  | nodes, rels, m :: rest =>
    let rels1 := rels ++ [mkRelFromMatch m]
    let nodes2 := ensureNode (ensureNode nodes m.sourceVar) m.targetVar
    processRelMatches nodes2 rels1 rest

/-- `query.replace(/\s+/g, ' ')`: collapse every whitespace run to one
space. -/
def collapseWS : JStr → JStr
  | [] => []
  | c :: rest =>
    if c.isWhitespace then
      match rest with
      | [] => [' ']
      | d :: _ =>
        if d.isWhitespace then collapseWS rest else ' ' :: collapseWS rest
    else c :: collapseWS rest

/-- `.replace(/\/\/.*\/g, '')` applied after whitespace collapsing: with
no newlines left, everything from the first `//` on is removed. -/
def commentCut (s : JStr) : JStr :=
  match breakFirst ("//".toList) s with
  | none => s
  | some (a, _) => a

/-- `parseCypherQuery` (lines 7–106). -/
def parseCypherQuery (query : JStr) :
    List Neo4jNode × List Neo4jRelationship :=
  let normalizedQuery := jsTrim (commentCut (collapseWS query))
  let nodes :=
    processNodeMatches []
      (scanNodesFuel (normalizedQuery.length + 1) normalizedQuery)
  processRelMatches nodes []
    (scanRelsFuel (normalizedQuery.length + 1) normalizedQuery)

/-- Modelled from the spec: the allow-list of characters (letters, digits,
underscore) that §4.3 requires every relationship type to be validated
against before interpolation.  No such validation exists in the source. -/
def isAllowListedChar (c : Char) : Bool := c.isAlpha || c.isDigit || c = '_'

/-- A connected store whose driver returns an empty result, for concrete
evaluations of handler behaviour. -/
def demoStore : StoreEnv :=
  { connected := true
    driverRun := fun q p =>
      .ok { records := [], summary := { query := q, parameters := p, counters := [] } } }

def demoEnv : WorkflowEnv := { replies := fun _ => [], store := demoStore }

def wfStart : WfState := { sent := [], queries := [] }

/-!
## Model checks and string lemmas
-/

-- Basic sanity checks of the JS string model.
example : jsTrim ("  Stop  ".toList) = "Stop".toList := by decide
example : splitOnL (",".toList) ("abc123, KNOWS".toList)
    = ["abc123".toList, " KNOWS".toList] := by decide
example : splitOnL (",".toList) ("abc123".toList) = ["abc123".toList] := by decide
example : jsReplaceFirst ("Tail Search: a, b".toList) ("Tail Search:".toList) []
    = " a, b".toList := by decide

/-! ### Facts about `breakFirst` and `splitOnL` -/

theorem breakFirst_some_decomp {sep : JStr} :
    ∀ {s a b : JStr}, breakFirst sep s = some (a, b) → s = a ++ sep ++ b := by
  intro s
  induction s with
  | nil =>
    intro a b h
    by_cases hsep : sep = [] <;> simp [breakFirst, hsep] at h
    simp [hsep, h.1, h.2]
  | cons c rest ih =>
    intro a b h
    by_cases hp : sep <+: (c :: rest)
    · simp only [breakFirst, if_pos hp] at h
      obtain ⟨t, ht⟩ := hp
      obtain ⟨ha, hb⟩ := Prod.mk.injEq .. ▸ (Option.some.injEq .. ▸ h)
      subst ha
      have : (c :: rest).drop sep.length = t := by
        rw [← ht, List.drop_left]
      rw [← hb, this, List.nil_append, ht]
    · simp only [breakFirst, if_neg hp] at h
      cases hbf : breakFirst sep rest with
      | none => rw [hbf] at h; exact absurd h (by simp)
      | some ab =>
        obtain ⟨a', b'⟩ := ab
        rw [hbf] at h
        simp only [Option.some.injEq, Prod.mk.injEq] at h
        obtain ⟨ha, hb⟩ := h
        have := ih hbf
        subst hb
        rw [← ha]
        simp [this]

theorem breakFirst_isSome_iff_infix {sep : JStr} :
    ∀ {s : JStr}, (breakFirst sep s).isSome = true ↔ sep <:+: s := by
  intro s
  induction s with
  | nil =>
    by_cases hsep : sep = [] <;>
      simp [breakFirst, hsep, List.infix_iff_prefix_suffix]
  | cons c rest ih =>
    by_cases hp : sep <+: (c :: rest)
    · simp only [breakFirst, if_pos hp, Option.isSome_some, true_iff]
      exact hp.isInfix
    · simp only [breakFirst, if_neg hp]
      rw [List.infix_cons_iff]
      constructor
      · intro h
        cases hbf : breakFirst sep rest with
        | none => rw [hbf] at h; simp at h
        | some ab => exact Or.inr (ih.mp (by rw [hbf]; rfl))
      · intro h
        rcases h with h | h
        · exact absurd h hp
        · have := ih.mpr h
          cases hbf : breakFirst sep rest with
          | none => rw [hbf] at this; simp at this
          | some ab => simp [hbf]

theorem breakFirst_none_iff {sep s : JStr} :
    breakFirst sep s = none ↔ ¬ sep <:+: s := by
  rw [← breakFirst_isSome_iff_infix]
  cases breakFirst sep s <;> simp

/-- When the separator occurs exactly once, `split` yields the two
surrounding segments. -/
theorem splitOnL_single_occurrence {sep s a b : JStr} (hsep : sep ≠ [])
    (h1 : breakFirst sep s = some (a, b)) (h2 : breakFirst sep b = none) :
    splitOnL sep s = [a, b] := by
  have hdecomp : s = a ++ sep ++ b := breakFirst_some_decomp h1
  have hlen : s.length = a.length + sep.length + b.length := by
    rw [hdecomp]; simp [List.length_append]; omega
  have hsl : 0 < sep.length := List.length_pos.mpr hsep
  obtain ⟨k, hk⟩ : ∃ k, s.length = k + 1 := ⟨s.length - 1, by omega⟩
  rw [splitOnL, if_neg hsep, hk]
  simp only [splitOnFuel, h1, h2]

/-- An occurrence of a pattern whose first character is not whitespace
survives dropping leading whitespace. -/
theorem infix_dropWhileWS {ch : Char} {mt b : JStr}
    (hc : ch.isWhitespace = false) :
    ∀ a : JStr, (ch :: mt) <:+: ((a ++ (ch :: mt)) ++ b).dropWhile Char.isWhitespace := by
  intro a
  induction a with
  | nil =>
    have hrw : (([] : JStr) ++ (ch :: mt)) ++ b = ch :: (mt ++ b) := by simp
    rw [hrw, List.dropWhile_cons_of_neg (by simp [hc])]
    exact ⟨[], b, by simp⟩
  | cons c a' ih =>
    have hrw : ((c :: a' ++ (ch :: mt)) ++ b) = c :: ((a' ++ (ch :: mt)) ++ b) := by simp
    rw [hrw]
    by_cases hw : c.isWhitespace
    · rw [List.dropWhile_cons_of_pos hw]
      exact ih
    · rw [List.dropWhile_cons_of_neg hw]
      exact ⟨c :: a', b, by simp⟩

/-- An occurrence of a pattern whose first and last characters are not
whitespace survives JS `trim`. -/
theorem infix_jsTrim (u v : Char) {m s : JStr}
    (hhead : m.head? = some u) (hc : u.isWhitespace = false)
    (hlast : m.getLast? = some v) (hcl : v.isWhitespace = false)
    (hinf : m <:+: s) : m <:+: jsTrim s := by
  obtain ⟨mt, hm⟩ : ∃ mt, m = u :: mt := by
    cases m with
    | nil => simp at hhead
    | cons x xs => exact ⟨xs, by simpa using congrArg (fun o => o.getD u) hhead⟩
  -- step 1: survive the leading dropWhile
  have h1 : m <:+: s.dropWhile Char.isWhitespace := by
    obtain ⟨a, b, hab⟩ := hinf
    rw [← hab, hm]
    exact infix_dropWhileWS hc a
  -- step 2: survive the trailing dropWhile, via reverse
  have hrevhead : m.reverse.head? = some v := by
    rw [List.head?_reverse]; exact hlast
  obtain ⟨rt, hrev⟩ : ∃ rt, m.reverse = v :: rt := by
    cases hm' : m.reverse with
    | nil => rw [hm'] at hrevhead; simp at hrevhead
    | cons x xs =>
      rw [hm'] at hrevhead
      exact ⟨xs, by simpa using congrArg (fun o => o.getD v) hrevhead⟩
  have h2 : m.reverse <:+: (s.dropWhile Char.isWhitespace).reverse :=
    List.reverse_infix.mpr h1
  have h3 : m.reverse <:+:
      ((s.dropWhile Char.isWhitespace).reverse.dropWhile Char.isWhitespace) := by
    obtain ⟨a, b, hab⟩ := h2
    rw [← hab, hrev]
    exact infix_dropWhileWS hcl a
  have h4 : m <:+: jsTrim s := by
    rw [jsTrim, ← List.reverse_reverse m]
    exact List.reverse_infix.mpr h3
  exact h4

/-- Infix occurrences force a length bound. -/
theorem infix_length_le {m s : JStr} (h : m <:+: s) : m.length ≤ s.length := by
  obtain ⟨a, b, hab⟩ := h
  rw [← hab]
  simp [List.length_append]
  omega

-- Sanity checks against the spec's §8 examples.
example : classifyResponse ("stop".toList) = .stopAction := by decide
example : classifyResponse ("  Stop  ".toList) = .stopAction := by decide
example : classifyResponse ("Entity Search: Paris".toList)
    = .entitySearch ("Paris".toList) := by decide
example : classifyResponse ("Tail Search: abc123, KNOWS".toList)
    = .relatedEntitiesSearch ("abc123, KNOWS".toList) := by decide
example : classifyResponse ("hello".toList) = .invalid := by decide

-- Sanity checks.
example : parseCypherQuery ("(a)-[:X]->(c)".toList)
    = ([{ varName := "a".toList, labels := [], properties := none },
        { varName := "c".toList, labels := [], properties := none }],
       [{ relVar := none, type := "X".toList, source := "a".toList,
          target := "c".toList, properties := none }]) := by decide
example : parseCypherQuery ("(a)-->(b)".toList)
    = ([{ varName := "a".toList, labels := [], properties := none },
        { varName := "b".toList, labels := [], properties := none }],
       [{ relVar := none, type := "RELATED_TO".toList, source := "a".toList,
          target := "b".toList, properties := none }]) := by decide
example : parseCypherQuery ("(n:Person \x7bname: \"Alice\"\x7d)".toList)
    = ([{ varName := "n".toList, labels := ["Person".toList],
          properties := some [("name".toList, "Alice".toList)] }], []) := by decide

/-!
## Claims
-/

/-- C8: for every query text and parameters, calling the executor while no
store connection is established fails with the NotConnected error kind (the
'Not connected' failure), never a different kind, and no query is issued to
the store. -/
theorem c8_disconnected_always_not_connected (env : StoreEnv) (query : JStr)
    (params : List (JStr × JStr)) (h : env.connected = false) :
    runCypherQuery env query params = (.error .notConnected, []) := by
  simp [runCypherQuery, h]

theorem c8_witness :
    runCypherQuery { connected := false, driverRun := fun _ _ => .error [] } [] []
      = (.error .notConnected, []) :=
  c8_disconnected_always_not_connected _ [] [] rfl

/-- C10: the formatted result's columns are the stringified keys of the
first record and each row has exactly one entry per column in column
order; with zero records the formatter returns empty columns and rows, so
the query's declared projection names are not reported then. -/
theorem c10_format_columns_and_rows (result : CypherResult) :
    (formatCypherResult result).columns
        = (match result.records with | [] => [] | r0 :: _ => r0.keys) ∧
    (formatCypherResult result).rows
        = result.records.map (fun record =>
            (formatCypherResult result).columns.map (fun column => record.get column)) ∧
    (result.records = [] →
      (formatCypherResult result).columns = [] ∧
      (formatCypherResult result).rows = []) := by
  rcases result with ⟨records, summary⟩
  cases records with
  | nil => simp [formatCypherResult]
  | cons r0 rest => simp [formatCypherResult]

theorem c10_witness :
    (formatCypherResult
        { records := [], summary := { query := [], parameters := [], counters := [] } }).columns
        = [] ∧
    (formatCypherResult
        { records := [], summary := { query := [], parameters := [], counters := [] } }).rows
        = [] :=
  (c10_format_columns_and_rows _).2.2 rfl

/-- C3: the extractor on `"(a:Person)-[:KNOWS]->(b:Person)"` produces the
two labeled nodes but NO relationship — the relationship regex only
matches endpoints of the bare form `(var)`, so a labeled endpoint defeats
it.  The claim (and spec §8) expects one KNOWS relationship here. -/
theorem c3_labeled_endpoints_yield_no_relationship :
    parseCypherQuery ("(a:Person)-[:KNOWS]->(b:Person)".toList)
      = ([{ varName := "a".toList, labels := ["Person".toList], properties := none },
          { varName := "b".toList, labels := ["Person".toList], properties := none }],
         []) := by decide

set_option maxRecDepth 8192 in
/-- C1: the related-entities handler interpolates the relationship type
into the query's pattern clause with no allow-list validation: the payload
`"abc123, KNOWS]->(e3)"`, whose relationship type contains characters
outside letters/digits/underscore, is interpolated verbatim into the one
query issued to the store. -/
theorem c1_unvalidated_type_is_interpolated :
    (∃ c ∈ ("KNOWS]->(e3)".toList : JStr), isAllowListedChar c = false) ∧
    (handleRelatedEntitiesSearch demoEnv wfStart ("abc123, KNOWS]->(e3)".toList)).1.queries
      = [(relatedSearchQueryText ("KNOWS]->(e3)".toList),
          [("entityId".toList, "abc123".toList)])] ∧
    ("KNOWS]->(e3)".toList : JStr) <:+: relatedSearchQueryText ("KNOWS]->(e3)".toList) := by
  refine ⟨⟨']', by decide, by decide⟩, by decide, ?_⟩
  decide

set_option maxRecDepth 8192 in
/-- C6 counterexample: the payload `"abc123,"` has exactly one comma yet
its second field is empty; the handler does not report a format error — it
issues a query (with an empty relationship type) instead, refuting "splits
... into two trimmed non-empty fields". -/
theorem c6_counterexample_empty_field_accepted :
    parseRelatedPayload ("abc123,".toList) = some ("abc123".toList, []) ∧
    (handleRelatedEntitiesSearch demoEnv wfStart ("abc123,".toList)).1.queries
      = [(relatedSearchQueryText [], [("entityId".toList, "abc123".toList)])] ∧
    (handleRelatedEntitiesSearch demoEnv wfStart ("abc123,".toList)).1.sent
      ≠ [mkSystemMsg RELATED_FORMAT_ERROR_MESSAGE ("Tail Search".toList)] := by
  refine ⟨by decide, by decide, by decide⟩

/-- C6 (amended): the payload is split on commas and only the part count
is checked — `"abc123, KNOWS"` yields the trimmed fields `abc123`/`KNOWS`
(which may in general be empty), and for every payload whose comma-split
does not have exactly two parts the handler sends the format-error system
turn and issues no query, rather than crashing or querying. -/
theorem c6_comma_count_checked (env : WorkflowEnv) (st : WfState) (text : JStr) :
    parseRelatedPayload ("abc123, KNOWS".toList)
      = some ("abc123".toList, "KNOWS".toList) ∧
    ((splitOnL (",".toList) text).length ≠ 2 →
      (handleRelatedEntitiesSearch env st text).1.sent
          = st.sent ++ [mkSystemMsg RELATED_FORMAT_ERROR_MESSAGE ("Tail Search".toList)] ∧
      (handleRelatedEntitiesSearch env st text).1.queries = st.queries) := by
  refine ⟨by decide, fun h => ?_⟩
  have hnone : parseRelatedPayload text = none := by
    simp only [parseRelatedPayload]
    rw [if_pos h]
  simp [handleRelatedEntitiesSearch, hnone, sendMessages]

theorem c6_witness :
    (handleRelatedEntitiesSearch demoEnv wfStart ("abc123".toList)).1.sent
        = [mkSystemMsg RELATED_FORMAT_ERROR_MESSAGE ("Tail Search".toList)] ∧
    (handleRelatedEntitiesSearch demoEnv wfStart ("abc123".toList)).1.queries = [] := by
  have h := (c6_comma_count_checked demoEnv wfStart ("abc123".toList)).2 (by decide)
  simpa [wfStart] using h

set_option maxRecDepth 8192 in
/-- C4 counterexample: on the claimed raw row `[null, "x", {labels:["Person"]}]`
over columns `[a,b,c]`, the third binding's type is `object`, not the
claimed `uri` — the code's graph-entity markers are the underscore-prefixed
fields `_labels`/`_id`/`_type`, and `labels` is not one of them. -/
theorem c4_counterexample_labels_not_a_marker :
    (convertToSparqlResultsFormat
        { columns := ["a".toList, "b".toList, "c".toList],
          rows := [[.vnull, .vstr ("x".toList),
                    .vobj [("labels".toList, .varr [.vstr ("Person".toList)])]]],
          summary := { query := [], parameters := [], counters := [] } }).bindings
      = [[("a".toList, { type := "unknown".toList, value := [] }),
          ("b".toList, { type := "string".toList, value := "x".toList }),
          ("c".toList, { type := "object".toList,
                         value := "\x7b\"labels\":[\"Person\"]\x7d".toList })]] ∧
    ("object".toList : JStr) ≠ ("uri".toList) := by
  refine ⟨by decide, by decide⟩

/-- C4 (amended): the normalizer maps every cell totally: null/undefined to
`{unknown, ""}`; an object with a truthy `_labels`, `_id` or `_type` field
(the code's graph-entity markers) to `{uri, JSON}`; any other object or
array to `{object, JSON}`; a primitive to its `typeof` and string form.
The claimed example row normalizes to `uri` only with the `_labels`
spelling; with `labels` it is an `object` binding. -/
theorem c4_normalizer_mapping :
    (convertCell .vnull = { type := "unknown".toList, value := [] } ∧
     convertCell .vundefined = { type := "unknown".toList, value := [] }) ∧
    (∀ fields, (truthy (getField (.vobj fields) ("_labels".toList)) ||
                truthy (getField (.vobj fields) ("_id".toList)) ||
                truthy (getField (.vobj fields) ("_type".toList))) = true →
       convertCell (.vobj fields)
         = { type := "uri".toList, value := jsonStringify (.vobj fields) }) ∧
    (∀ fields, (truthy (getField (.vobj fields) ("_labels".toList)) ||
                truthy (getField (.vobj fields) ("_id".toList)) ||
                truthy (getField (.vobj fields) ("_type".toList))) = false →
       convertCell (.vobj fields)
         = { type := "object".toList, value := jsonStringify (.vobj fields) }) ∧
    (∀ items, convertCell (.varr items)
         = { type := "object".toList, value := jsonStringify (.varr items) }) ∧
    ((∀ b, convertCell (.vbool b)
         = { type := "boolean".toList, value := jsToString (.vbool b) }) ∧
     (∀ n, convertCell (.vnum n)
         = { type := "number".toList, value := jsToString (.vnum n) }) ∧
     (∀ s, convertCell (.vstr s)
         = { type := "string".toList, value := s })) ∧
    convertCell (.vobj [("_labels".toList, .varr [.vstr ("Person".toList)])])
      = { type := "uri".toList,
          value := "\x7b\"_labels\":[\"Person\"]\x7d".toList } := by
  refine ⟨⟨rfl, rfl⟩, fun fields h => ?_, fun fields h => ?_, fun items => ?_,
    ⟨fun b => ?_, fun n => ?_, fun s => ?_⟩, by decide⟩
  · simp only [convertCell, Binding.mk.injEq, cellType, cellValueStr]
    constructor
    · rw [if_pos (show typeofStr (CellValue.vobj fields) = ("object".toList) from rfl),
        if_pos h]
    · rw [if_pos (show typeofStr (CellValue.vobj fields) = ("object".toList) from rfl)]
  · simp only [convertCell, Binding.mk.injEq, cellType, cellValueStr]
    constructor
    · rw [if_pos (show typeofStr (CellValue.vobj fields) = ("object".toList) from rfl),
        if_neg (by rw [h]; decide)]
    · rw [if_pos (show typeofStr (CellValue.vobj fields) = ("object".toList) from rfl)]
  · simp only [convertCell, Binding.mk.injEq, cellType, cellValueStr]
    constructor
    · rw [if_pos (show typeofStr (CellValue.varr items) = ("object".toList) from rfl),
        if_neg (by simp [truthy, getField])]
    · rw [if_pos (show typeofStr (CellValue.varr items) = ("object".toList) from rfl)]
  · simp only [convertCell, Binding.mk.injEq, cellType, cellValueStr, typeofStr, jsToString]
    rw [if_neg (show ¬ ("boolean".toList : JStr) = ("object".toList) by decide),
      if_neg (show ¬ ("boolean".toList : JStr) = ("object".toList) by decide)]
    simp
  · simp only [convertCell, Binding.mk.injEq, cellType, cellValueStr, typeofStr, jsToString]
    rw [if_neg (show ¬ ("number".toList : JStr) = ("object".toList) by decide),
      if_neg (show ¬ ("number".toList : JStr) = ("object".toList) by decide)]
    simp
  · simp only [convertCell, Binding.mk.injEq, cellType, cellValueStr, typeofStr, jsToString]
    rw [if_neg (show ¬ ("string".toList : JStr) = ("object".toList) by decide),
      if_neg (show ¬ ("string".toList : JStr) = ("object".toList) by decide)]
    simp

theorem c4_witness :
    convertCell (.vobj [("_id".toList, .vnum 7)])
        = { type := "uri".toList,
            value := jsonStringify (.vobj [("_id".toList, .vnum 7)]) } ∧
    convertCell (.vobj [("name".toList, .vstr ("x".toList))])
        = { type := "object".toList,
            value := jsonStringify (.vobj [("name".toList, .vstr ("x".toList))]) } :=
  ⟨c4_normalizer_mapping.2.1 _ (by decide),
   c4_normalizer_mapping.2.2.1 _ (by decide)⟩

/-- C5: markers are checked in fixed priority order — a reply containing
both an "Entity Search:" and a "Properties Search:" marker classifies as
EntitySearch (entity first), and since the tail branch tests starts-with
on the trimmed reply, a reply in which "Tail Search:" only appears after a
preamble is never classified as a related-entities search. -/
theorem c5_marker_priority_and_tail_anchor (text : JStr) :
    (ENTITY_SEARCH_MARKER <:+: text → PROPERTIES_SEARCH_MARKER <:+: text →
      ∃ t, classifyResponse text = .entitySearch t) ∧
    (∀ p, ¬ TAIL_SEARCH_MARKER <+: jsTrim text →
      classifyResponse text ≠ .relatedEntitiesSearch p) := by
  constructor
  · intro h1 _h2
    have hinfT : ENTITY_SEARCH_MARKER <:+: jsTrim text :=
      infix_jsTrim 'E' ':' (by decide) (by decide) (by decide) (by decide) h1
    have hlen : ENTITY_SEARCH_MARKER.length ≤ (jsTrim text).length :=
      infix_length_le hinfT
    have hml : ENTITY_SEARCH_MARKER.length = 14 := by decide
    have hne : ¬ jsToUpper (jsTrim text) = ("STOP".toList) := by
      intro heq
      have h4 : (jsToUpper (jsTrim text)).length = 4 := by rw [heq]; decide
      rw [jsToUpper, List.length_map] at h4
      omega
    have hres : classifyResponse text
        = .entitySearch (jsTrim ((splitOnL ENTITY_SEARCH_MARKER (jsTrim text)).getD 1 [])) := by
      simp only [classifyResponse]
      rw [if_neg hne, if_pos hinfT]
    exact ⟨_, hres⟩
  · intro p hp heq
    simp only [classifyResponse] at heq
    split_ifs at heq

theorem c5_witness :
    (∃ t, classifyResponse ("note Entity Search: x Properties Search: y".toList)
        = .entitySearch t) ∧
    classifyResponse ("intro Tail Search: a, b".toList)
      ≠ .relatedEntitiesSearch ("a, b".toList) :=
  ⟨(c5_marker_priority_and_tail_anchor _).1 (by decide) (by decide),
   (c5_marker_priority_and_tail_anchor _).2 _ (by decide)⟩

/-- With at least one occurrence of the separator, `split` begins with the
segment before the first occurrence, then the split of the remainder. -/
theorem splitOnFuel_cons_of_some {sep b a2 b2 : JStr}
    (h : breakFirst sep b = some (a2, b2)) :
    ∀ fuel, 1 ≤ fuel → ∃ rest, splitOnFuel sep fuel b = a2 :: rest := by
  intro fuel hf
  obtain ⟨k, hk⟩ : ∃ k, fuel = k + 1 := ⟨fuel - 1, by omega⟩
  subst hk
  exact ⟨splitOnFuel sep k b2, by simp only [splitOnFuel, h]⟩

set_option maxRecDepth 8192 in
/-- C7 counterexample: on a reply in which the entity marker occurs twice,
the payload is only the segment between the two occurrences — not the
claimed entire substring following the first occurrence (which would also
carry the text after the second occurrence). -/
theorem c7_counterexample_second_marker_truncates :
    classifyResponse ("Entity Search: a Entity Search: b".toList)
        = .entitySearch ("a".toList) ∧
    jsTrim (afterFirstOcc ENTITY_SEARCH_MARKER
        (jsTrim ("Entity Search: a Entity Search: b".toList)))
        = ("a Entity Search: b".toList) ∧
    ("a".toList : JStr) ≠ ("a Entity Search: b".toList) := by
  refine ⟨by decide, by decide, by decide⟩

/-- C7 (amended): for a reply matched by the entity-search (resp.
properties-search) marker, the payload is `split(marker)[1].trim()`: the
segment of the trimmed reply strictly between the first and second marker
occurrences when the marker recurs, and exactly the entire substring
following the first occurrence, trimmed, when the marker occurs once. -/
theorem c7_payload_is_between_markers (text a b a2 b2 : JStr) :
    (breakFirst ENTITY_SEARCH_MARKER (jsTrim text) = some (a, b) →
      ¬ ENTITY_SEARCH_MARKER <:+: b →
      classifyResponse text = .entitySearch (jsTrim b) ∧
      b = afterFirstOcc ENTITY_SEARCH_MARKER (jsTrim text)) ∧
    (¬ ENTITY_SEARCH_MARKER <:+: jsTrim text →
      breakFirst PROPERTIES_SEARCH_MARKER (jsTrim text) = some (a, b) →
      ¬ PROPERTIES_SEARCH_MARKER <:+: b →
      classifyResponse text = .propertiesSearch (jsTrim b) ∧
      b = afterFirstOcc PROPERTIES_SEARCH_MARKER (jsTrim text)) ∧
    (breakFirst ENTITY_SEARCH_MARKER (jsTrim text) = some (a, b) →
      breakFirst ENTITY_SEARCH_MARKER b = some (a2, b2) →
      classifyResponse text = .entitySearch (jsTrim a2)) ∧
    (¬ ENTITY_SEARCH_MARKER <:+: jsTrim text →
      breakFirst PROPERTIES_SEARCH_MARKER (jsTrim text) = some (a, b) →
      breakFirst PROPERTIES_SEARCH_MARKER b = some (a2, b2) →
      classifyResponse text = .propertiesSearch (jsTrim a2)) := by
  have hstop : ∀ m : JStr, 5 ≤ m.length → m <:+: jsTrim text →
      ¬ jsToUpper (jsTrim text) = ("STOP".toList) := by
    intro m hm5 hinf heq
    have h4 : (jsToUpper (jsTrim text)).length = 4 := by rw [heq]; decide
    have hlen := infix_length_le hinf
    rw [jsToUpper, List.length_map] at h4
    omega
  refine ⟨fun hbf hnb => ?_, fun hnoE hbf hnb => ?_, fun hbf hbf2 => ?_,
    fun hnoE hbf hbf2 => ?_⟩
  · have hdecomp := breakFirst_some_decomp hbf
    have hinf : ENTITY_SEARCH_MARKER <:+: jsTrim text := ⟨a, b, hdecomp.symm⟩
    have hsplit : splitOnL ENTITY_SEARCH_MARKER (jsTrim text) = [a, b] :=
      splitOnL_single_occurrence (by decide) hbf (breakFirst_none_iff.mpr hnb)
    constructor
    · simp only [classifyResponse]
      rw [if_neg (hstop _ (by decide) hinf), if_pos hinf, hsplit]
      rfl
    · simp [afterFirstOcc, hbf]
  · have hdecomp := breakFirst_some_decomp hbf
    have hinf : PROPERTIES_SEARCH_MARKER <:+: jsTrim text := ⟨a, b, hdecomp.symm⟩
    have hsplit : splitOnL PROPERTIES_SEARCH_MARKER (jsTrim text) = [a, b] :=
      splitOnL_single_occurrence (by decide) hbf (breakFirst_none_iff.mpr hnb)
    constructor
    · simp only [classifyResponse]
      rw [if_neg (hstop _ (by decide) hinf), if_neg hnoE, if_pos hinf, hsplit]
      rfl
    · simp [afterFirstOcc, hbf]
  · have hdecomp := breakFirst_some_decomp hbf
    have hinf : ENTITY_SEARCH_MARKER <:+: jsTrim text := ⟨a, b, hdecomp.symm⟩
    have hb1 : 1 ≤ b.length := by
      have hd2 := breakFirst_some_decomp hbf2
      have : b.length = a2.length + ENTITY_SEARCH_MARKER.length + b2.length := by
        rw [hd2]; simp [List.length_append]; omega
      have hm : ENTITY_SEARCH_MARKER.length = 14 := by decide
      omega
    have hslen : (jsTrim text).length = a.length + ENTITY_SEARCH_MARKER.length + b.length := by
      rw [hdecomp]; simp [List.length_append]; omega
    obtain ⟨rest, hrest⟩ := splitOnFuel_cons_of_some hbf2 (jsTrim text).length (by omega)
    have hsplit : (splitOnL ENTITY_SEARCH_MARKER (jsTrim text)).getD 1 [] = a2 := by
      rw [splitOnL, if_neg (show ¬ ENTITY_SEARCH_MARKER = ([] : JStr) by decide)]
      simp only [splitOnFuel, hbf, hrest]
      rfl
    simp only [classifyResponse]
    rw [if_neg (hstop _ (by decide) hinf), if_pos hinf, hsplit]
  · have hdecomp := breakFirst_some_decomp hbf
    have hinf : PROPERTIES_SEARCH_MARKER <:+: jsTrim text := ⟨a, b, hdecomp.symm⟩
    have hb1 : 1 ≤ b.length := by
      have hd2 := breakFirst_some_decomp hbf2
      have : b.length = a2.length + PROPERTIES_SEARCH_MARKER.length + b2.length := by
        rw [hd2]; simp [List.length_append]; omega
      have hm : PROPERTIES_SEARCH_MARKER.length = 18 := by decide
      omega
    have hslen : (jsTrim text).length
        = a.length + PROPERTIES_SEARCH_MARKER.length + b.length := by
      rw [hdecomp]; simp [List.length_append]; omega
    obtain ⟨rest, hrest⟩ := splitOnFuel_cons_of_some hbf2 (jsTrim text).length (by omega)
    have hsplit : (splitOnL PROPERTIES_SEARCH_MARKER (jsTrim text)).getD 1 [] = a2 := by
      rw [splitOnL, if_neg (show ¬ PROPERTIES_SEARCH_MARKER = ([] : JStr) by decide)]
      simp only [splitOnFuel, hbf, hrest]
      rfl
    simp only [classifyResponse]
    rw [if_neg (hstop _ (by decide) hinf), if_neg hnoE, if_pos hinf, hsplit]

theorem c7_witness :
    classifyResponse ("Entity Search: hello".toList)
        = .entitySearch ("hello".toList) ∧
    classifyResponse ("pre Properties Search: e1".toList)
        = .propertiesSearch ("e1".toList) ∧
    classifyResponse ("Entity Search: a Entity Search: b".toList)
        = .entitySearch ("a".toList) ∧
    classifyResponse ("Properties Search: a Properties Search: b".toList)
        = .propertiesSearch ("a".toList) := by
  have h1 := (c7_payload_is_between_markers ("Entity Search: hello".toList)
    [] (" hello".toList) [] []).1 (by decide) (by decide)
  have h2 := (c7_payload_is_between_markers ("pre Properties Search: e1".toList)
    ("pre ".toList) (" e1".toList) [] []).2.1 (by decide) (by decide) (by decide)
  have h3 := (c7_payload_is_between_markers ("Entity Search: a Entity Search: b".toList)
    [] (" a Entity Search: b".toList) (" a ".toList) (" b".toList)).2.2.1
    (by decide) (by decide)
  have h4 := (c7_payload_is_between_markers
    ("Properties Search: a Properties Search: b".toList)
    [] (" a Properties Search: b".toList) (" a ".toList) (" b".toList)).2.2.2
    (by decide) (by decide) (by decide)
  refine ⟨?_, ?_, ?_, ?_⟩
  · rw [h1.1]; decide
  · rw [h2.1]; decide
  · rw [h3]; decide
  · rw [h4]; decide

theorem mem_ensureNode {nodes : List Neo4jNode} {v : JStr} :
    ∀ n ∈ nodes, n ∈ ensureNode nodes v := by
  intro n hn
  rw [ensureNode]
  split
  · exact hn
  · exact List.mem_append_left _ hn

theorem exists_varName_ensureNode (nodes : List Neo4jNode) (v : JStr) :
    ∃ n ∈ ensureNode nodes v, n.varName = v := by
  rw [ensureNode]
  by_cases h : nodes.any (fun n => n.varName = v)
  · rw [if_pos h]
    simpa using h
  · rw [if_neg h]
    exact ⟨{ varName := v, labels := [], properties := none },
      List.mem_append_right _ (by simp), rfl⟩

theorem exists_varName_mono {nodes nodes' : List Neo4jNode} {v : JStr}
    (hsub : ∀ n ∈ nodes, n ∈ nodes') :
    (∃ n ∈ nodes, n.varName = v) → ∃ n ∈ nodes', n.varName = v := by
  rintro ⟨n, hn, hv⟩
  exact ⟨n, hsub n hn, hv⟩

/-- Invariant of the relationship-scan loop: if every already-collected
relationship's endpoints resolve to registered nodes, the same holds of
the final output, since each step registers the new relationship's
endpoints before continuing. -/
theorem processRelMatches_resolves :
    ∀ (ms : List RelMatch) (nodes : List Neo4jNode) (rels : List Neo4jRelationship),
      (∀ r ∈ rels,
        (∃ n ∈ nodes, n.varName = r.source) ∧ (∃ n ∈ nodes, n.varName = r.target)) →
      ∀ r ∈ (processRelMatches nodes rels ms).2,
        (∃ n ∈ (processRelMatches nodes rels ms).1, n.varName = r.source) ∧
        (∃ n ∈ (processRelMatches nodes rels ms).1, n.varName = r.target) := by
  intro ms
  induction ms with
  | nil =>
    intro nodes rels hinv r hr
    simpa [processRelMatches] using hinv r (by simpa [processRelMatches] using hr)
  | cons m rest ih =>
    intro nodes rels hinv r hr
    have hsub : ∀ n ∈ nodes, n ∈ ensureNode (ensureNode nodes m.sourceVar) m.targetVar :=
      fun n hn => mem_ensureNode _ (mem_ensureNode n hn)
    have hinv2 : ∀ r' ∈ rels ++ [mkRelFromMatch m],
        (∃ n ∈ ensureNode (ensureNode nodes m.sourceVar) m.targetVar,
          n.varName = r'.source) ∧
        (∃ n ∈ ensureNode (ensureNode nodes m.sourceVar) m.targetVar,
          n.varName = r'.target) := by
      intro r' hr'
      rcases List.mem_append.mp hr' with hr' | hr'
      · exact ⟨exists_varName_mono hsub (hinv r' hr').1,
          exists_varName_mono hsub (hinv r' hr').2⟩
      · have hr'' : r' = mkRelFromMatch m := by simpa using hr'
        subst hr''
        constructor
        · exact exists_varName_mono (fun n hn => mem_ensureNode n hn)
            (exists_varName_ensureNode nodes m.sourceVar)
        · exact exists_varName_ensureNode _ m.targetVar
    have := ih (ensureNode (ensureNode nodes m.sourceVar) m.targetVar)
      (rels ++ [mkRelFromMatch m]) hinv2 r
    simpa [processRelMatches] using this (by simpa [processRelMatches] using hr)

/-- C9: every relationship in the extractor's output has source and target
variables resolving to a node of the same returned pattern; a variable a
relationship references that was never declared as a node pattern is
synthesized as a node with an empty label set, as on `"(a)-[:X]->(c)"`
where node `c` carries no labels. -/
theorem c9_endpoints_resolve (query : JStr) (rel : Neo4jRelationship)
    (hrel : rel ∈ (parseCypherQuery query).2) :
    ((∃ n ∈ (parseCypherQuery query).1, n.varName = rel.source) ∧
     (∃ n ∈ (parseCypherQuery query).1, n.varName = rel.target)) ∧
    parseCypherQuery ("(a)-[:X]->(c)".toList)
      = ([{ varName := "a".toList, labels := [], properties := none },
          { varName := "c".toList, labels := [], properties := none }],
         [{ relVar := none, type := "X".toList, source := "a".toList,
            target := "c".toList, properties := none }]) := by
  constructor
  · simp only [parseCypherQuery] at hrel ⊢
    exact processRelMatches_resolves _ _ _ (by simp) rel hrel
  · decide

theorem c9_witness :
    (∃ n ∈ (parseCypherQuery ("(a)-[:X]->(c)".toList)).1,
        n.varName = ("a".toList : JStr)) ∧
    (∃ n ∈ (parseCypherQuery ("(a)-[:X]->(c)".toList)).1,
        n.varName = ("c".toList : JStr)) := by
  have h := c9_endpoints_resolve ("(a)-[:X]->(c)".toList)
    { relVar := none, type := "X".toList, source := "a".toList,
      target := "c".toList, properties := none } (by decide)
  exact h.1

/-- Every entity-search dispatch performs exactly one chat round-trip. -/
theorem sent_handleEntitySearch (env : WorkflowEnv) (st : WfState) (t : JStr) :
    ∃ msg, (handleEntitySearch env st t).1.sent = st.sent ++ [msg] := by
  simp only [handleEntitySearch]
  split
  · exact ⟨_, rfl⟩
  · split
    · exact ⟨_, rfl⟩
    · exact ⟨_, rfl⟩

/-- Every properties-search dispatch performs exactly one chat round-trip. -/
theorem sent_handlePropertiesSearch (env : WorkflowEnv) (st : WfState) (t : JStr) :
    ∃ msg, (handlePropertiesSearch env st t).1.sent = st.sent ++ [msg] := by
  simp only [handlePropertiesSearch]
  split
  · exact ⟨_, rfl⟩
  · split
    · exact ⟨_, rfl⟩
    · exact ⟨_, rfl⟩

/-- Every related-entities dispatch performs exactly one chat round-trip. -/
theorem sent_handleRelatedEntitiesSearch (env : WorkflowEnv) (st : WfState) (t : JStr) :
    ∃ msg, (handleRelatedEntitiesSearch env st t).1.sent = st.sent ++ [msg] := by
  simp only [handleRelatedEntitiesSearch]
  split
  · exact ⟨_, rfl⟩
  · split
    · exact ⟨_, rfl⟩
    · split
      · exact ⟨_, rfl⟩
      · exact ⟨_, rfl⟩

/-- The loop adds at most `fuel` chat round-trips. -/
theorem sent_queryBuildingLoop (env : WorkflowEnv) :
    ∀ (fuel : Nat) (st : WfState) (reply : JStr),
      (queryBuildingLoop env fuel st reply).1.sent.length ≤ st.sent.length + fuel := by
  intro fuel
  induction fuel with
  | zero => intro st reply; simp [queryBuildingLoop]
  | succ k ih =>
    intro st reply
    simp only [queryBuildingLoop]
    cases hc : classifyResponse reply with
    | stopAction => simp
    | entitySearch t =>
      obtain ⟨msg, hmsg⟩ := sent_handleEntitySearch env st t
      have h2 := ih (handleEntitySearch env st t).1 (handleEntitySearch env st t).2
      have h3 : (handleEntitySearch env st t).1.sent.length = st.sent.length + 1 := by
        rw [hmsg]; simp
      simp only []
      omega
    | propertiesSearch t =>
      obtain ⟨msg, hmsg⟩ := sent_handlePropertiesSearch env st t
      have h2 := ih (handlePropertiesSearch env st t).1 (handlePropertiesSearch env st t).2
      have h3 : (handlePropertiesSearch env st t).1.sent.length = st.sent.length + 1 := by
        rw [hmsg]; simp
      simp only []
      omega
    | relatedEntitiesSearch t =>
      obtain ⟨msg, hmsg⟩ := sent_handleRelatedEntitiesSearch env st t
      have h2 := ih (handleRelatedEntitiesSearch env st t).1
        (handleRelatedEntitiesSearch env st t).2
      have h3 : (handleRelatedEntitiesSearch env st t).1.sent.length
          = st.sent.length + 1 := by
        rw [hmsg]; simp
      simp only []
      omega
    | invalid =>
      have h2 := ih (sendMessages env st
          (mkSystemMsg INVALID_RESPONSE_MESSAGE ("Query Building".toList))).1
        (sendMessages env st
          (mkSystemMsg INVALID_RESPONSE_MESSAGE ("Query Building".toList))).2
      have h3 : (sendMessages env st
          (mkSystemMsg INVALID_RESPONSE_MESSAGE ("Query Building".toList))).1.sent.length
          = st.sent.length + 1 := by
        simp [sendMessages]
      simp only []
      omega

/-- C2: for every sequence of model replies (invalid or error-triggering
ones included), the query-building loop performs at most 20 round-trips
beyond the initial message — at most 22 sends in total — and the workflow
always ends by sending the final query-construction turn, returning the
model's reply to it. -/
theorem c2_loop_bounded_and_final_turn (env : WorkflowEnv) (text : JStr) :
    (queryBuildingWorkflow env text).1.sent.length ≤ QUERY_BUILDING_MAX_LOOPS + 2 ∧
    (queryBuildingWorkflow env text).1.sent.getLast? = some (finalQueryMessage text) ∧
    (queryBuildingWorkflow env text).2
      = env.replies ((queryBuildingWorkflow env text).1.sent.length - 1) := by
  have hloop := sent_queryBuildingLoop env QUERY_BUILDING_MAX_LOOPS
    (sendMessages env { sent := [], queries := [] }
      (mkSystemMsg INITIAL_QUERY_BUILDING_SYSTEM_MESSAGE ("Query Building".toList))).1
    (sendMessages env { sent := [], queries := [] }
      (mkSystemMsg INITIAL_QUERY_BUILDING_SYSTEM_MESSAGE ("Query Building".toList))).2
  have hinit : (sendMessages env { sent := [], queries := [] }
      (mkSystemMsg INITIAL_QUERY_BUILDING_SYSTEM_MESSAGE ("Query Building".toList))).1.sent.length
      = 1 := by simp [sendMessages]
  rw [hinit] at hloop
  refine ⟨?_, ?_, ?_⟩
  · simp only [queryBuildingWorkflow, sendMessages, List.length_append]
    simpa [QUERY_BUILDING_MAX_LOOPS] using hloop
  · simp only [queryBuildingWorkflow, sendMessages]
    exact List.getLast?_concat _
  · simp only [queryBuildingWorkflow, sendMessages, List.length_append]
    simp
